import Mathlib

/-!
Verification of the code-gen repository (a Go clean-architecture scaffolding
generator) against its natural-language specification.

The development shallowly embeds the relevant Go functions:

* `analyzer` package (`src/main.go`): `determineLayer`, `extractBaseName`,
  `extractMethodInfo`, `shouldIncludeFile`, `analyzeFile`/`AnalyzeProject`
  control flow, `establishRelationships`;
* `generator` package (`src/unnamed/part_000`): `generateZeroValue`,
  `findRelatedInterface`, `writeFactoryMethod`, `generateStructName`,
  `Generate` and its sub-generators;
* Pipeline A `internal/generator/generator.go`: `writeFile` / `createBackup`.

Go strings are embedded as Lean `String`s, Go maps keyed by strings as
association lists with overwrite-on-insert, and Go's side effects (logging,
file system) as explicitly returned logs / operation traces.  Go's `panic`
(reachable in `generateStructName` via `interfaceName[0]` on an empty name)
is embedded as `Option`.
-/

namespace CodeGen

/-- Embeds Go `strings.Contains s pat`: `pat` occurs as a contiguous
substring of `s`. -/
def containsSub (s pat : String) : Bool := decide (pat.data <:+: s.data)

/-- Embeds Go `strings.HasPrefix s pre`. -/
def goHasPre (s pre : String) : Bool := pre.data.isPrefixOf s.data

/-- Embeds Go `strings.HasSuffix s suffix`. -/
def hasSuffix (s suffix : String) : Bool := suffix.data.isSuffixOf s.data

/-- Embeds Go `strings.TrimSuffix s suffix`: drops `suffix` when present. -/
def trimSuffix (s suffix : String) : String :=
  if hasSuffix s suffix then String.mk (s.data.take (s.data.length - suffix.data.length)) else s

/-- Embeds Go `strings.TrimPrefix s pre`: drops `pre` when present. -/
def goTrimPre (s pre : String) : String :=
  if goHasPre s pre then String.mk (s.data.drop pre.data.length) else s

/-- Embeds Go `strings.ToLower` (character-wise lower-casing; the interface
names involved are ASCII). -/
def goToLower (s : String) : String := String.mk (s.data.map Char.toLower)

/-- The four architectural layers of `types.LayerType`
(`src/unnamed/part_004`). -/
inductive LayerType where
  | repository
  | usecase
  | handler
  | service
deriving DecidableEq, Repr

/-- String value of each `types.LayerType` constant. -/
def LayerType.str : LayerType → String
  | .repository => "repository"
  | .usecase => "usecase"
  | .handler => "handler"
  | .service => "service"

/-- Embeds `Analyzer.determineLayer` (src/main.go lines 918-933): lower-case
the interface name and test substrings in precedence order. -/
def determineLayer (interfaceName : String) : LayerType :=
  let name := goToLower interfaceName
  if containsSub name "repo" || containsSub name "repository" then
    LayerType.repository
  else if containsSub name "usecase" || containsSub name "use_case" then
    LayerType.usecase
  else if containsSub name "handler" || containsSub name "controller" then
    LayerType.handler
  else if containsSub name "service" then
    LayerType.service
  else
    LayerType.service

/-- Modelled from the spec: the layer-classification cascade as §4.1 states it
("contains `repo` → persistence; else `usecase`/`use_case` → use-case; else
`handler`/`controller` → delivery; else generic-service, with or without
`service`").  Written for comparison with `determineLayer`. -/
def layerSpec (interfaceName : String) : LayerType :=
  let name := goToLower interfaceName
  if containsSub name "repo" then
    LayerType.repository
  else if containsSub name "usecase" || containsSub name "use_case" then
    LayerType.usecase
  else if containsSub name "handler" || containsSub name "controller" then
    LayerType.handler
  else
    LayerType.service

/-- The candidate suffix list of `extractBaseName` (src/main.go line 952 and
src/unnamed/part_000 line 494), in source order. -/
def baseSuffixes : List String :=
  ["Handler", "Controller", "UseCase", "Service", "Repo", "Repository"]

/-- Helper for `extractBaseName`: walk the candidate list, strip the first
matching suffix (Go `strings.TrimSuffix` after a positive `HasSuffix`). -/
def stripFirst : List String → String → String
  | [], n => n
  | s :: rest, n =>
    if hasSuffix n s then String.mk (n.data.take (n.data.length - s.data.length))
    else stripFirst rest n

/-- Embeds `extractBaseName` (identical in src/main.go lines 950-961 and
src/unnamed/part_000 lines 493-503). -/
def extractBaseName (interfaceName : String) : String :=
  stripFirst baseSuffixes interfaceName

-- Basic facts about the helpers

theorem containsSub_eq_true {s pat : String} :
    containsSub s pat = true ↔ pat.data <:+: s.data := by
  simp [containsSub]

theorem hasSuffix_eq_true {s suffix : String} :
    hasSuffix s suffix = true ↔ suffix.data <:+ s.data := by
  simp [hasSuffix, List.isSuffixOf_iff_suffix]

/-- Any string containing "repository" also contains "repo". -/
theorem containsSub_repo_of_repository {s : String}
    (h : containsSub s "repository" = true) : containsSub s "repo" = true := by
  rw [containsSub_eq_true] at h ⊢
  exact List.IsInfix.trans (List.IsPrefix.isInfix (by decide)) h

/-- C1: Layer classification is a total pure function of the interface name
alone, agreeing everywhere with the spec's precedence cascade (`repo` before
`usecase`/`use_case` before `handler`/`controller` before the generic-service
default); in particular `ServiceRepository` classifies as the persistence
layer because `repo` is tested before `service`. -/
theorem claim_C1_layer_classification :
    (∀ name : String, determineLayer name = layerSpec name) ∧
    determineLayer "ServiceRepository" = LayerType.repository := by
  constructor
  · intro name
    unfold determineLayer layerSpec
    by_cases h : containsSub (goToLower name) "repo" = true
    · simp [h]
    · have h2 : containsSub (goToLower name) "repository" = false := by
        cases hc : containsSub (goToLower name) "repository"
        · rfl
        · exact absurd (containsSub_repo_of_repository hc) h
      have h1 : containsSub (goToLower name) "repo" = false := by
        cases hc : containsSub (goToLower name) "repo"
        · rfl
        · exact absurd hc h
      simp [h1, h2, ite_self]
  · decide

/-- No two distinct candidate suffixes can both be suffixes of the same name:
the candidates are pairwise not suffixes of one another, and two suffixes of
the same list are comparable. -/
theorem baseSuffixes_unique {n s t : String}
    (hs : s ∈ baseSuffixes) (ht : t ∈ baseSuffixes)
    (hns : hasSuffix n s = true) (hnt : hasSuffix n t = true) : t = s := by
  have hs' : s.data <:+ n.data := hasSuffix_eq_true.mp hns
  have ht' : t.data <:+ n.data := hasSuffix_eq_true.mp hnt
  have hor := List.suffix_or_suffix_of_suffix hs' ht'
  simp only [baseSuffixes, List.mem_cons, List.not_mem_nil, or_false] at hs ht
  rcases hs with rfl | rfl | rfl | rfl | rfl | rfl <;>
    rcases ht with rfl | rfl | rfl | rfl | rfl | rfl <;>
      first
      | rfl
      | (rcases hor with h | h <;> exact absurd h (by decide))

/-- If no candidate in the list is a suffix of `n`, the walk returns `n`. -/
theorem stripFirst_of_none : ∀ (L : List String) (n : String),
    (∀ s ∈ L, hasSuffix n s = false) → stripFirst L n = n
  | [], _, _ => rfl
  | s :: rest, n, h => by
    have h0 : hasSuffix n s = false := h s (List.mem_cons_self s rest)
    simp only [stripFirst, h0, Bool.false_eq_true, if_false]
    exact stripFirst_of_none rest n (fun t ht => h t (List.mem_cons_of_mem s ht))

/-- If `s` is the unique matching candidate in the list, the walk strips
exactly `s`. -/
theorem stripFirst_eq : ∀ (L : List String) (n s : String), s ∈ L →
    hasSuffix n s = true → (∀ t ∈ L, hasSuffix n t = true → t = s) →
    stripFirst L n = String.mk (n.data.take (n.data.length - s.data.length))
  | [], _, _, hmem, _, _ => absurd hmem (List.not_mem_nil _)
  | t :: rest, n, s, hmem, hs, huniq => by
    by_cases h : hasSuffix n t = true
    · have he : t = s := huniq t (List.mem_cons_self t rest) h
      subst he
      simp [stripFirst, h]
    · have hne : s ≠ t := fun he => h (he ▸ hs)
      have hmem' : s ∈ rest := by
        rcases List.mem_cons.mp hmem with he | hm
        · exact absurd he.symm hne.symm
        · exact hm
      have h' : hasSuffix n t = false := by
        cases hc : hasSuffix n t
        · rfl
        · exact absurd hc h
      simp only [stripFirst, h', Bool.false_eq_true, if_false]
      exact stripFirst_eq rest n s hmem' hs
        (fun u hu hnu => huniq u (List.mem_cons_of_mem t hu) hnu)

/-- C2 (amended): base-name extraction strips at most one suffix from the
candidate list — when some candidate matches, it is the unique (hence first
listed and longest) match and exactly that suffix is removed; a name matching
no candidate is returned unchanged; and a second application is a no-op
whenever the first result matches no candidate (full idempotence fails, see
the counterexample). -/
theorem claim_C2_extractBaseName (n : String) :
    ((∀ s ∈ baseSuffixes, hasSuffix n s = false) → extractBaseName n = n) ∧
    (∀ s ∈ baseSuffixes, hasSuffix n s = true →
      extractBaseName n ++ s = n ∧ ∀ t ∈ baseSuffixes, hasSuffix n t = true → t = s) ∧
    ((∀ s ∈ baseSuffixes, hasSuffix (extractBaseName n) s = false) →
      extractBaseName (extractBaseName n) = extractBaseName n) := by
  refine ⟨fun h => stripFirst_of_none baseSuffixes n h, fun s hmem hs => ?_,
    fun h => stripFirst_of_none baseSuffixes (extractBaseName n) h⟩
  have huniq : ∀ t ∈ baseSuffixes, hasSuffix n t = true → t = s :=
    fun t ht hnt => baseSuffixes_unique hmem ht hs hnt
  refine ⟨?_, huniq⟩
  obtain ⟨t, ht⟩ := hasSuffix_eq_true.mp hs
  have hlen : n.data.length - s.data.length = t.length := by
    rw [← ht]
    simp [List.length_append]
  have hbase : extractBaseName n = String.mk t := by
    rw [extractBaseName, stripFirst_eq baseSuffixes n s hmem hs huniq]
    congr 1
    rw [hlen, ← ht]
    exact List.take_left t s.data
  rw [hbase]
  apply String.ext
  rw [String.data_append]
  exact ht

/-- C2 counterexample: extraction is not idempotent on every input — for
`RepoRepo` the first application yields `Repo`, and a second application
strips again, yielding the empty string. -/
theorem claim_C2_counterexample :
    extractBaseName (extractBaseName "RepoRepo") ≠ extractBaseName "RepoRepo" := by
  decide

/-- C2 witness: the amended theorem instantiated at `UserRepository` (suffix
`Repository` is the unique match and is stripped) and at `User` (no candidate
matches, name unchanged). -/
theorem claim_C2_witness :
    ("Repository" ∈ baseSuffixes ∧ hasSuffix "UserRepository" "Repository" = true ∧
      extractBaseName "UserRepository" ++ "Repository" = "UserRepository") ∧
    ((∀ s ∈ baseSuffixes, hasSuffix "User" s = false) ∧ extractBaseName "User" = "User") :=
  ⟨⟨by decide, by decide,
      ((claim_C2_extractBaseName "UserRepository").2.1 "Repository" (by decide) (by decide)).1⟩,
    ⟨by decide, (claim_C2_extractBaseName "User").1 (by decide)⟩⟩

/-! ## Zero-value generation (Pipeline B generator) -/

/-- Embeds `Generator.generateZeroValue` (src/unnamed/part_000 lines 474-491):
the switch cases in source order. -/
def generateZeroValue (typeName : String) : String :=
  if typeName == "error" then "nil"
  else if typeName == "string" then "\"\""
  else if goHasPre typeName "int" || goHasPre typeName "uint" ||
      typeName == "float32" || typeName == "float64" then "0"
  else if typeName == "bool" then "false"
  else if goHasPre typeName "*" || goHasPre typeName "[]" ||
      goHasPre typeName "map[" || containsSub typeName "interface" then "nil"
  else typeName ++ "\x7b\x7d"

/-- The spec's "numeric-prefixed type name" clause, read as the source reads
it: prefix `int` or `uint`, or exactly `float32`/`float64`. -/
def isNumericName (t : String) : Bool :=
  goHasPre t "int" || goHasPre t "uint" || t == "float32" || t == "float64"

/-- The spec's "pointer-, slice-, map-, or interface-shaped (by
prefix/substring match)" clause. -/
def isNilShaped (t : String) : Bool :=
  goHasPre t "*" || goHasPre t "[]" || goHasPre t "map[" || containsSub t "interface"

/-- Modelled from the spec: the zero-value cascade exactly as §4.3 lists it —
`nil` for `error`, empty-string literal for `string`, `0` for numeric names,
`false` for boolean, `nil` for nil-shaped types, otherwise an empty composite
literal of the type's own name.  Written for comparison with
`generateZeroValue`. -/
def zeroValueSpec (t : String) : String :=
  if t == "error" then "nil"
  else if t == "string" then "\"\""
  else if isNumericName t then "0"
  else if t == "bool" then "false"
  else if isNilShaped t then "nil"
  else t ++ "\x7b\x7d"

/-- C7: zero-value generation is a total deterministic function of the
encoded type string, agreeing everywhere with the spec's ordered cascade; the
second conjunct pins one representative per branch.  Note the cascade order
is observable: the anonymous-interface encoding `interface\x7b\x7d` begins
with `int` and therefore falls into the numeric-prefix clause (yielding `0`),
so the interface-substring clause fires only for strings such as
`chan interface\x7b\x7d` that no earlier clause catches. -/
theorem claim_C7_zero_values :
    (∀ t : String, generateZeroValue t = zeroValueSpec t) ∧
    (generateZeroValue "error" = "nil" ∧ generateZeroValue "string" = "\"\"" ∧
      generateZeroValue "int64" = "0" ∧ generateZeroValue "uint8" = "0" ∧
      generateZeroValue "float64" = "0" ∧ generateZeroValue "bool" = "false" ∧
      generateZeroValue "*User" = "nil" ∧ generateZeroValue "[]User" = "nil" ∧
      generateZeroValue "map[string]int" = "nil" ∧
      generateZeroValue "chan interface\x7b\x7d" = "nil" ∧
      generateZeroValue "interface\x7b\x7d" = "0" ∧
      generateZeroValue "User" = "User\x7b\x7d") :=
  ⟨fun _ => rfl, by decide⟩

/-! ## Conditional-compilation inclusion filter -/

/-- Embeds Go `strings.TrimSpace` on the whitespace characters relevant to
source lines. -/
def goTrimSpace (s : String) : String :=
  String.mk (((s.data.dropWhile Char.isWhitespace).reverse.dropWhile Char.isWhitespace).reverse)

/-- A trimmed line declaring a conditional-compilation constraint
(src/main.go line 724). -/
def buildConstraintLine (line : String) : Bool :=
  goHasPre line "//go:build" || goHasPre line "// +build"

/-- Embeds the indexed loop of `Analyzer.shouldIncludeFile` (src/main.go
lines 717-735): stop after index 10, return on the first constraint line,
otherwise fall through to `true`. -/
def scanBuildLines (tags : List String) : Nat → List String → Bool
  | _, [] => true
  | i, line :: rest =>
    if i > 10 then true
    else
      let l := goTrimSpace line
      if buildConstraintLine l then tags.any fun t => containsSub l t
      else scanBuildLines tags (i + 1) rest

/-- Embeds `Analyzer.shouldIncludeFile` (src/main.go lines 705-736) on the
file's lines (the Go code splits the raw file content on newlines; a file
read error also yields `true` and is not modelled). -/
def shouldIncludeFile (tags : List String) (lines : List String) : Bool :=
  if tags.isEmpty then true
  else scanBuildLines tags 0 lines

/-- The loop starting at index `i` inspects exactly the first `11 - i` lines
and keys on the first constraint line among them. -/
theorem scanBuildLines_eq (tags : List String) :
    ∀ (lines : List String) (i : Nat),
      scanBuildLines tags i lines =
        (match ((lines.take (11 - i)).map goTrimSpace).find? buildConstraintLine with
          | some l => tags.any fun t => containsSub l t
          | none => true)
  | [], i => by simp [scanBuildLines]
  | line :: rest, i => by
    by_cases h : i > 10
    · have h0 : 11 - i = 0 := by omega
      simp [scanBuildLines, h, h0]
    · have h1 : 11 - i = (10 - i) + 1 := by omega
      have h2 : 11 - (i + 1) = 10 - i := by omega
      rw [h1]
      simp only [List.take_succ_cons, List.map_cons]
      cases hb : buildConstraintLine (goTrimSpace line)
      · rw [List.find?_cons_of_neg _ (by simp [hb])]
        simp only [scanBuildLines, if_neg h, hb, Bool.false_eq_true, if_false]
        rw [scanBuildLines_eq tags rest (i + 1), h2]
      · rw [List.find?_cons_of_pos _ (by simp [hb])]
        simp [scanBuildLines, h, hb]

/-- C6 (amended): for a nonempty configured tag list, a file whose first ~10
lines (indices 0-10) declare a conditional-compilation constraint is included
exactly when some configured tag occurs as a substring of the first such
(trimmed) line, and a file declaring no constraint there is always included;
when the configured tag list is empty, every file is included regardless of
any declared constraint. -/
theorem claim_C6_build_filter :
    ∀ (tags : List String) (lines : List String),
      shouldIncludeFile tags lines =
        if tags.isEmpty then true
        else
          match ((lines.take 11).map goTrimSpace).find? buildConstraintLine with
          | some l => tags.any fun t => containsSub l t
          | none => true := by
  intro tags lines
  unfold shouldIncludeFile
  cases htags : tags.isEmpty
  · simp only [Bool.false_eq_true, if_false]
    simpa using scanBuildLines_eq tags lines 0
  · rfl

/-- C6 counterexample: with an empty configured tag list the code includes a
file that declares a build constraint, although no configured tag appears in
the constraint line — refuting the claim's "including the empty list"
quantification. -/
theorem claim_C6_counterexample :
    shouldIncludeFile [] ["//go:build integration"] = true ∧
    buildConstraintLine (goTrimSpace "//go:build integration") = true ∧
    (([] : List String).any fun t => containsSub "//go:build integration" t) = false := by
  refine ⟨rfl, by decide, rfl⟩

/-! ## Method extraction flags -/

/-- A parameter or return value (`types.ParamInfo`). -/
structure ParamInfo where
  name : String
  type : String
deriving DecidableEq, Repr

/-- One field of an AST parameter/result list: the identifier list and the
textual type encoding that `typeToString` produces for it. -/
structure AstField where
  names : List String
  type : String
deriving DecidableEq, Repr

/-- An extracted interface method (`types.MethodInfo`; the `Comments` field
is never populated by the analyzer and is omitted). -/
structure MethodInfo where
  name : String
  params : List ParamInfo
  returns : List ParamInfo
  hasContext : Bool
  hasError : Bool
deriving DecidableEq, Repr

/-- Embeds the field-expansion loops of `extractMethodInfo` (src/main.go
lines 838-887): a field with names contributes one entry per name, an
anonymous field contributes a single entry with empty name. -/
def expandFields (fields : List AstField) : List ParamInfo :=
  fields.flatMap fun f =>
    if f.names.isEmpty then [⟨"", f.type⟩]
    else f.names.map fun nm => ⟨nm, f.type⟩

/-- Embeds `Analyzer.extractMethodInfo` (src/main.go lines 829-890).  The Go
loop raises `HasContext`/`HasError` by assignment inside the iteration; the
final flag value is the disjunction over the fields, embedded with `any`.
`funcType.Results == nil` behaves as the empty result list. -/
def extractMethodInfo (name : String) (params results : List AstField) : MethodInfo :=
  { name := name
    params := expandFields params
    returns := expandFields results
    hasContext := params.any fun f => containsSub f.type "Context"
    hasError := results.any fun f => f.type == "error" }

/-- A predicate on the encoded type holds for some expanded entry exactly
when it holds for some field (each field contributes at least one entry, all
with the field's type). -/
theorem expandFields_any (q : String → Bool) :
    ∀ fields : List AstField,
      (expandFields fields).any (fun p => q p.type) = fields.any fun f => q f.type
  | [] => rfl
  | f :: rest => by
    simp only [expandFields, List.flatMap_cons, List.any_append, List.any_cons]
    rw [← expandFields, expandFields_any q rest]
    cases hn : f.names with
    | nil => simp
    | cons nm nms =>
      simp only [hn, List.isEmpty_cons, Bool.false_eq_true, if_false, List.any_map]
      cases hq : q f.type
      · simp only [Bool.false_or]
        simp [List.any_eq_false, Function.comp, hq]
      · simp [Function.comp, hq]

/-- C4 (amended): `hasContext` is set exactly when some parameter's encoded
type contains the substring `Context`, and `hasError` is set exactly when
some return value's encoded type is exactly `error` (not only a final one:
see the counterexample for a non-final `error`). -/
theorem claim_C4_method_flags :
    ∀ (name : String) (params results : List AstField),
      ((extractMethodInfo name params results).hasContext =
        (extractMethodInfo name params results).params.any fun p =>
          containsSub p.type "Context") ∧
      ((extractMethodInfo name params results).hasError =
        (extractMethodInfo name params results).returns.any fun r =>
          r.type == "error") := by
  intro name params results
  constructor
  · exact (expandFields_any (fun t => containsSub t "Context") params).symm
  · exact (expandFields_any (fun t => t == "error") results).symm

/-- C4 counterexample: a method whose ordered return list is
`(error, int)` — the final return's encoded type is `int`, yet the code sets
`hasError` because a non-final return is `error`, refuting "exactly when the
final return value's encoded type is `error`". -/
theorem claim_C4_counterexample :
    (extractMethodInfo "M" [] [⟨[], "error"⟩, ⟨[], "int"⟩]).hasError = true ∧
    ((extractMethodInfo "M" [] [⟨[], "error"⟩, ⟨[], "int"⟩]).returns.getLast?.map
      ParamInfo.type) = some "int" := by
  decide

/-! ## Analyzer data model (`types`, src/unnamed/part_004) -/

/-- An analyzed interface (`types.InterfaceInfo`). -/
structure InterfaceInfo where
  name : String
  pkg : String
  filePath : String
  methods : List MethodInfo
  layer : LayerType
  relatedInterfaces : List String
  comments : List String
deriving DecidableEq, Repr

/-- A struct field (`types.FieldInfo`). -/
structure FieldInfo where
  name : String
  type : String
  tag : String
  embedded : Bool
deriving DecidableEq, Repr

/-- An analyzed struct (`types.StructInfo`). -/
structure StructInfo where
  name : String
  pkg : String
  filePath : String
  fields : List FieldInfo
  comments : List String
deriving DecidableEq, Repr

/-- Project-wide analysis state (`types.ProjectInfo`).  The Go maps keyed by
name are embedded as association lists with overwrite-on-insert; the
`Imports` map is not modelled (no claim concerns it). -/
structure ProjectInfo where
  moduleName : String
  packageName : String
  projectDir : String
  interfaces : List (String × InterfaceInfo)
  structs : List (String × StructInfo)
deriving DecidableEq, Repr

/-- Go map assignment `m[k] = v`: replace the binding when present, add it
otherwise. -/
def insertAssoc {β : Type} : List (String × β) → String → β → List (String × β)
  | [], k, v => [(k, v)]
  | (k', v') :: rest, k, v =>
    if k' == k then (k, v) :: rest else (k', v') :: insertAssoc rest k v

theorem lookup_insertAssoc_self {β : Type} :
    ∀ (l : List (String × β)) (k : String) (v : β),
      (insertAssoc l k v).lookup k = some v
  | [], k, v => by simp [insertAssoc, List.lookup]
  | (k', v') :: rest, k, v => by
    by_cases h : k' = k
    · subst h
      simp [insertAssoc, List.lookup]
    · have hb : (k' == k) = false := beq_eq_false_iff_ne.mpr h
      have hb' : (k == k') = false := beq_eq_false_iff_ne.mpr (Ne.symm h)
      simp [insertAssoc, hb, hb', List.lookup, lookup_insertAssoc_self rest k v]

theorem lookup_insertAssoc_ne {β : Type} :
    ∀ (l : List (String × β)) (k k' : String) (v : β), k ≠ k' →
      (insertAssoc l k v).lookup k' = l.lookup k'
  | [], k, k', v, hne => by
    have hb : (k' == k) = false := beq_eq_false_iff_ne.mpr (Ne.symm hne)
    simp [insertAssoc, List.lookup, hb]
  | (a, b) :: rest, k, k', v, hne => by
    by_cases h : a = k
    · subst h
      have hb : (k' == a) = false := beq_eq_false_iff_ne.mpr (Ne.symm hne)
      simp [insertAssoc, List.lookup, hb]
    · have hb : (a == k) = false := beq_eq_false_iff_ne.mpr h
      simp only [insertAssoc, hb, Bool.false_eq_true, if_false, List.lookup]
      cases hk : k' == a
      · simp [lookup_insertAssoc_ne rest k k' v hne]
      · simp

/-! ## Relationship resolution -/

/-- The related-interface names the inner loop of `establishRelationships`
(src/main.go lines 935-948) appends for one interface: every other analyzed
interface with an equal extracted base name and a different name. -/
def relatedNames (all : List InterfaceInfo) (i : InterfaceInfo) : List String :=
  (all.filter fun o =>
      extractBaseName i.name == extractBaseName o.name && i.name != o.name).map
    InterfaceInfo.name

/-- Embeds `Analyzer.establishRelationships` over the map's value set: each
interface record receives the related names (appended to its
`RelatedInterfaces`, which the analyzer initialises empty).  The inner loop
reads only the other records' names, so in-place mutation during iteration
equals this snapshot semantics. -/
def establishRelationships (all : List InterfaceInfo) : List InterfaceInfo :=
  all.map fun i =>
    { i with relatedInterfaces := i.relatedInterfaces ++ relatedNames all i }

/-- `establishRelationships` applied to the interface map of a project. -/
def establishRelationshipsPI (pi : ProjectInfo) : ProjectInfo :=
  { pi with
    interfaces := pi.interfaces.map fun kv =>
      (kv.1,
        { kv.2 with
          relatedInterfaces :=
            kv.2.relatedInterfaces ++
              relatedNames (pi.interfaces.map Prod.snd) kv.2 }) }

theorem mem_relatedNames {all : List InterfaceInfo} {i : InterfaceInfo} {x : String} :
    x ∈ relatedNames all i ↔
      ∃ o ∈ all, o.name = x ∧
        extractBaseName i.name = extractBaseName o.name ∧ i.name ≠ o.name := by
  simp only [relatedNames, List.mem_map, List.mem_filter, Bool.and_eq_true,
    beq_iff_eq, bne_iff_ne]
  constructor
  · rintro ⟨o, ⟨ho, hbase, hne⟩, rfl⟩
    exact ⟨o, ho, rfl, hbase, hne⟩
  · rintro ⟨o, ho, rfl, hbase, hne⟩
    exact ⟨o, ⟨ho, hbase, hne⟩, rfl⟩

/-- C8: after relationship resolution over interface records whose related
lists start empty (as the analyzer creates them), relatedness is irreflexive
(no record lists itself), symmetric, and two records list each other exactly
when their extracted base names are equal and their names differ. -/
theorem claim_C8_relationships :
    ∀ (all : List InterfaceInfo), (∀ i ∈ all, i.relatedInterfaces = []) →
      ∀ a b : InterfaceInfo,
        a ∈ establishRelationships all → b ∈ establishRelationships all →
        (a.name ∉ a.relatedInterfaces) ∧
        (b.name ∈ a.relatedInterfaces ↔ a.name ∈ b.relatedInterfaces) ∧
        (b.name ∈ a.relatedInterfaces ↔
          (extractBaseName a.name = extractBaseName b.name ∧ a.name ≠ b.name)) := by
  intro all h0 a b ha hb
  obtain ⟨a0, ha0, rfl⟩ := List.mem_map.mp ha
  obtain ⟨b0, hb0, rfl⟩ := List.mem_map.mp hb
  simp only [h0 a0 ha0, h0 b0 hb0, List.nil_append]
  have hchar : ∀ (i j : InterfaceInfo), j ∈ all →
      (j.name ∈ relatedNames all i ↔
        (extractBaseName i.name = extractBaseName j.name ∧ i.name ≠ j.name)) := by
    intro i j hj
    rw [mem_relatedNames]
    constructor
    · rintro ⟨o, _, hname, hbase, hne⟩
      rw [← hname]
      exact ⟨hbase, hne⟩
    · rintro ⟨hbase, hne⟩
      exact ⟨j, hj, rfl, hbase, hne⟩
  refine ⟨?_, ?_, hchar a0 b0 hb0⟩
  · intro hmem
    obtain ⟨o, _, hname, _, hne⟩ := mem_relatedNames.mp hmem
    exact hne hname.symm
  · rw [hchar a0 b0 hb0, hchar b0 a0 ha0]
    constructor
    · rintro ⟨hbase, hne⟩
      exact ⟨hbase.symm, hne.symm⟩
    · rintro ⟨hbase, hne⟩
      exact ⟨hbase.symm, hne.symm⟩

/-- Concrete interfaces for the C8 witness. -/
def iUserRepo : InterfaceInfo :=
  ⟨"UserRepo", "app", "user.go", [], determineLayer "UserRepo", [], []⟩

/-- Concrete interfaces for the C8 witness. -/
def iUserUseCase : InterfaceInfo :=
  ⟨"UserUseCase", "app", "user.go", [], determineLayer "UserUseCase", [], []⟩

/-- The C8 witness input set. -/
def c8All : List InterfaceInfo := [iUserRepo, iUserUseCase]

/-- The record for `UserRepo` after resolution. -/
def iUserRepoRel : InterfaceInfo :=
  { iUserRepo with relatedInterfaces := ["UserUseCase"] }

/-- The record for `UserUseCase` after resolution. -/
def iUserUseCaseRel : InterfaceInfo :=
  { iUserUseCase with relatedInterfaces := ["UserRepo"] }

/-- C8 witness: the theorem instantiated at the two-record set
`UserRepo` / `UserUseCase`, whose base names both extract to `User`. -/
theorem claim_C8_witness :
    (iUserRepoRel.name ∉ iUserRepoRel.relatedInterfaces) ∧
    (iUserUseCaseRel.name ∈ iUserRepoRel.relatedInterfaces ↔
      iUserRepoRel.name ∈ iUserUseCaseRel.relatedInterfaces) ∧
    (iUserUseCaseRel.name ∈ iUserRepoRel.relatedInterfaces ↔
      (extractBaseName iUserRepoRel.name = extractBaseName iUserUseCaseRel.name ∧
        iUserRepoRel.name ≠ iUserUseCaseRel.name)) :=
  claim_C8_relationships c8All (by decide) iUserRepoRel iUserUseCaseRel
    (by decide) (by decide)

/-! ## Pipeline B generator (src/unnamed/part_000) -/

/-- A generated file (`generator.GeneratedFile`). -/
structure GeneratedFile where
  filename : String
  content : String
  lineCount : Nat
deriving DecidableEq, Repr

/-- Embeds Go `strings.Count content "\n"` for the newline separator. -/
def countNewlines (s : String) : Nat := s.data.count '\n'

/-- Embeds Go `strings.Join parts sep`. -/
def joinSep (sep : String) : List String → String
  | [] => ""
  | [x] => x
  | x :: rest => x ++ sep ++ joinSep sep rest

/-- Concatenation of a list of strings (the repeated `WriteString` calls of
the Go builders). -/
def concatAll : List String → String
  | [] => ""
  | x :: rest => x ++ concatAll rest

/-- Splits a character list at spaces (helper for `goFields`). -/
def splitOnSpace : List Char → List (List Char)
  | [] => [[]]
  | c :: rest =>
    let r := splitOnSpace rest
    if c = ' ' then [] :: r
    else
      match r with
      | [] => [[c]]
      | h :: t => (c :: h) :: t

/-- Embeds Go `strings.Fields` on the dependency strings the generator
produces (which separate tokens with single spaces). -/
def goFields (s : String) : List String :=
  ((splitOnSpace s.data).map String.mk).filter fun x => !x.isEmpty

/-- Embeds `Generator.generateStructName` (src/unnamed/part_000 lines
197-199).  Go evaluates `interfaceName[0]`, which panics (index out of
range) on the empty string; the panic is embedded as `none`. -/
def generateStructName (interfaceName : String) : Option String :=
  match interfaceName.data with
  | [] => none
  | c :: rest => some (String.mk (Char.toLower c :: rest))

/-- Embeds `Generator.generateFileName` (lines 201-204). -/
def generateFileName (interfaceName : String) (layer : LayerType) : String :=
  goToLower (extractBaseName interfaceName) ++ "_" ++ layer.str ++ ".gen.go"

/-- Adds an import to the set once (the Go code uses a `map[string]bool`;
the embedding keeps insertion order, a choice the unordered Go map leaves
open). -/
def addImport (l : List String) (x : String) : List String :=
  if l.contains x then l else l ++ [x]

/-- Embeds `Generator.addFrameworkImports` (lines 248-261). -/
def addFrameworkImports (typeName : String) (imports : List String) : List String :=
  let i1 := if containsSub typeName "fiber.Ctx" then
      addImport imports "\"github.com/gofiber/fiber/v2\"" else imports
  let i2 := if containsSub typeName "gin.Context" then
      addImport i1 "\"github.com/gin-gonic/gin\"" else i1
  let i3 := if containsSub typeName "echo.Context" then
      addImport i2 "\"github.com/labstack/echo/v4\"" else i2
  if containsSub typeName "http.ResponseWriter" || containsSub typeName "http.Request" then
    addImport i3 "\"net/http\"" else i3

/-- Embeds `Generator.generateImports` (lines 206-246). -/
def generateImports (interfaceInfo : InterfaceInfo) : List String :=
  let step := fun (imps : List String) (m : MethodInfo) =>
    let imps := if m.hasContext then addImport imps "\"context\"" else imps
    let imps := m.params.foldl (fun acc p => addFrameworkImports p.type acc) imps
    m.returns.foldl (fun acc r => addFrameworkImports r.type acc) imps
  let imps := interfaceInfo.methods.foldl step []
  match interfaceInfo.layer with
  | .repository => addImport (addImport imps "\"database/sql\"") "\"fmt\""
  | .usecase => addImport imps "\"fmt\""
  | .handler => addImport (addImport imps "\"encoding/json\"") "\"net/http\""
  | .service => imps

/-- Embeds `Generator.writeFileHeader` (lines 191-195); `now` stands for the
`time.Now().Format(time.RFC3339)` timestamp, made an explicit parameter. -/
def writeFileHeader (packageName now : String) : String :=
  "// Code generated by code-gen. DO NOT EDIT.\n" ++
  "// Generated at: " ++ now ++ "\n\n" ++
  "package " ++ packageName ++ "\n\n"

/-- The layer-to-suffix table of `findRelatedInterface` (lines 458-462); a
layer absent from the Go map literal yields the empty slice. -/
def layerSuffixPairs : LayerType → List String
  | .repository => ["Repo", "Repository"]
  | .usecase => ["UseCase", "Service"]
  | .handler => ["Handler", "Controller"]
  | .service => []

/-- The lookup loop of `findRelatedInterface`. -/
def findRelatedGo (pi : ProjectInfo) (baseName : String) : List String → String
  | [] => ""
  | suffix :: rest =>
    let interfaceName := baseName ++ suffix
    if (pi.interfaces.lookup interfaceName).isSome then interfaceName
    else findRelatedGo pi baseName rest

/-- Embeds `Generator.findRelatedInterface` (lines 457-472): try each layer
suffix appended to the base name against the analyzed interface map. -/
def findRelatedInterface (baseName : String) (layer : LayerType) (pi : ProjectInfo) : String :=
  findRelatedGo pi baseName (layerSuffixPairs layer)

/-- Embeds `Generator.generateDependencies` (lines 435-455). -/
def generateDependencies (interfaceName : String) (interfaceInfo : InterfaceInfo)
    (pi : ProjectInfo) : List String :=
  let baseName := extractBaseName interfaceName
  match interfaceInfo.layer with
  | .repository => ["db *sql.DB"]
  | .usecase =>
    let repoInterface := findRelatedInterface baseName LayerType.repository pi
    if repoInterface != "" then ["repo " ++ repoInterface] else []
  | .handler =>
    let useCaseInterface := findRelatedInterface baseName LayerType.usecase pi
    if useCaseInterface != "" then ["useCase " ++ useCaseInterface] else []
  | .service => []

/-- Embeds `Generator.writeStructDefinition` (lines 263-281). -/
def writeStructDefinition (structName interfaceName : String)
    (interfaceInfo : InterfaceInfo) (pi : ProjectInfo) : String :=
  concatAll (interfaceInfo.comments.map fun c => "// " ++ goTrimSpace c ++ "\n") ++
  "// " ++ structName ++ " implements " ++ interfaceName ++ " interface\n" ++
  "type " ++ structName ++ " struct \x7b\n" ++
  concatAll ((generateDependencies interfaceName interfaceInfo pi).map
    fun dep => "\t" ++ dep ++ "\n") ++
  "\x7d\n\n"

/-- Embeds `Generator.writeConstructor` (lines 283-313): each dependency
string is split into field name and type; dependencies with fewer than two
tokens are skipped. -/
def writeConstructor (structName interfaceName : String)
    (interfaceInfo : InterfaceInfo) (pi : ProjectInfo) : String :=
  let dependencies := generateDependencies interfaceName interfaceInfo pi
  let pairs := dependencies.filterMap fun dep =>
    match goFields dep with
    | [] => none
    | [_] => none
    | fieldName :: restTokens =>
      some (fieldName ++ " " ++ joinSep " " restTokens,
        "\t\t" ++ fieldName ++ ": " ++ fieldName ++ ",")
  "// New" ++ interfaceName ++ " creates a new instance of " ++ structName ++ "\n" ++
  "func New" ++ interfaceName ++ "(" ++ joinSep ", " (pairs.map Prod.fst) ++ ") " ++
  interfaceName ++ " \x7b\n" ++
  "\treturn &" ++ structName ++ "\x7b\n" ++
  concatAll (pairs.map fun p => p.2 ++ "\n") ++
  "\t\x7d\n" ++
  "\x7d\n\n"

/-- Embeds `Generator.writeMethodBody` (lines 355-389). -/
def writeMethodBody (method : MethodInfo) (layer : LayerType) : String :=
  "\t// TODO: Implement " ++ method.name ++ "\n" ++
  (match layer with
    | .repository =>
      "\t// Example database operation:\n" ++
      "\t// query := \"SELECT * FROM table WHERE condition = ?\"\n" ++
      "\t// rows, err := impl.db.QueryContext(ctx, query, param)\n" ++
      "\t// if err != nil \x7b\n" ++
      "\t//     return result, fmt.Errorf(\"database query failed: %w\", err)\n" ++
      "\t// \x7d\n" ++
      "\t// defer rows.Close()\n"
    | .usecase =>
      "\t// Example business logic:\n" ++
      "\t// 1. Validate input parameters\n" ++
      "\t// 2. Call repository methods\n" ++
      "\t// 3. Apply business rules\n" ++
      "\t// 4. Return processed result\n"
    | .handler =>
      "\t// Example HTTP handler:\n" ++
      "\t// 1. Parse request parameters\n" ++
      "\t// 2. Call use case methods\n" ++
      "\t// 3. Handle errors appropriately\n" ++
      "\t// 4. Return HTTP response\n"
    | .service => "") ++
  (if method.returns.isEmpty then ""
   else "\treturn " ++
     joinSep ", " (method.returns.map fun r => generateZeroValue r.type) ++ "\n")

/-- Embeds `Generator.writeMethodImplementation` (lines 315-353). -/
def writeMethodImplementation (structName : String) (method : MethodInfo)
    (layer : LayerType) : String :=
  "// " ++ method.name ++ " implements the " ++ method.name ++ " method\n" ++
  "func (impl *" ++ structName ++ ") " ++ method.name ++ "(" ++
  joinSep ", " (method.params.map fun p =>
    if p.name != "" then p.name ++ " " ++ p.type else p.type) ++ ")" ++
  (if method.returns.isEmpty then ""
   else " (" ++
     joinSep ", " (method.returns.map fun r =>
       if r.name != "" then r.name ++ " " ++ r.type else r.type) ++ ")") ++
  " \x7b\n" ++
  writeMethodBody method layer ++
  "\x7d\n\n"

/-- The two header lines every factory method starts with
(src/unnamed/part_000 lines 394-395). -/
def factoryMethodHeader (interfaceName : String) : String :=
  "// New" ++ interfaceName ++ " creates a new " ++ interfaceName ++
  " instance with dependencies\n" ++
  "func (f *Factory) New" ++ interfaceName ++ "() " ++ interfaceName ++ " \x7b\n"

/-- Embeds `Generator.writeFactoryMethod` (lines 391-423). -/
def writeFactoryMethod (interfaceName : String) (interfaceInfo : InterfaceInfo)
    (pi : ProjectInfo) : String :=
  let baseName := extractBaseName interfaceName
  factoryMethodHeader interfaceName ++
  (match interfaceInfo.layer with
    | .repository => "\treturn New" ++ interfaceName ++ "(f.db)\n"
    | .usecase =>
      let repoInterface := findRelatedInterface baseName LayerType.repository pi
      if repoInterface != "" then
        "\trepo := f.New" ++ repoInterface ++ "()\n" ++
        "\treturn New" ++ interfaceName ++ "(repo)\n"
      else
        "\t// TODO: Add repository dependency\n" ++
        "\treturn New" ++ interfaceName ++ "(/* dependencies */)\n"
    | .handler =>
      let useCaseInterface := findRelatedInterface baseName LayerType.usecase pi
      if useCaseInterface != "" then
        "\tuseCase := f.New" ++ useCaseInterface ++ "()\n" ++
        "\treturn New" ++ interfaceName ++ "(useCase)\n"
      else
        "\t// TODO: Add use case dependency\n" ++
        "\treturn New" ++ interfaceName ++ "(/* dependencies */)\n"
    | .service => "\treturn New" ++ interfaceName ++ "()\n") ++
  "\x7d\n\n"

/-- Appending a nonempty string yields a nonempty string. -/
theorem append_ne_empty (b s : String) (h : s ≠ "") : (b ++ s) ≠ "" := by
  intro he
  apply h
  apply String.ext
  have hd : (b ++ s).data = ("" : String).data := congrArg String.data he
  rw [String.data_append] at hd
  have : s.data = [] := (List.append_eq_nil.mp hd).2
  simpa using this

/-- C3: a use-case-layer factory method resolves its repository dependency by
looking up first `base ++ "Repo"`, then `base ++ "Repository"`, in the
analyzed interface map; on success it emits a call to that repository's
factory method whose result is passed to the use-case constructor, and when
neither lookup succeeds it emits the placeholder comment and a constructor
call with no arguments. -/
theorem claim_C3_factory_usecase :
    ∀ (pi : ProjectInfo) (interfaceName : String) (interfaceInfo : InterfaceInfo),
      interfaceInfo.layer = LayerType.usecase →
      (((pi.interfaces.lookup (extractBaseName interfaceName ++ "Repo")).isSome = true →
        writeFactoryMethod interfaceName interfaceInfo pi =
          factoryMethodHeader interfaceName ++
          "\trepo := f.New" ++ (extractBaseName interfaceName ++ "Repo") ++ "()\n" ++
          "\treturn New" ++ interfaceName ++ "(repo)\n" ++ "\x7d\n\n") ∧
      ((pi.interfaces.lookup (extractBaseName interfaceName ++ "Repo")).isSome = false →
        (pi.interfaces.lookup (extractBaseName interfaceName ++ "Repository")).isSome = true →
        writeFactoryMethod interfaceName interfaceInfo pi =
          factoryMethodHeader interfaceName ++
          "\trepo := f.New" ++ (extractBaseName interfaceName ++ "Repository") ++ "()\n" ++
          "\treturn New" ++ interfaceName ++ "(repo)\n" ++ "\x7d\n\n") ∧
      ((pi.interfaces.lookup (extractBaseName interfaceName ++ "Repo")).isSome = false →
        (pi.interfaces.lookup (extractBaseName interfaceName ++ "Repository")).isSome = false →
        writeFactoryMethod interfaceName interfaceInfo pi =
          factoryMethodHeader interfaceName ++
          "\t// TODO: Add repository dependency\n" ++
          "\treturn New" ++ interfaceName ++ "(/* dependencies */)\n" ++ "\x7d\n\n")) := by
  intro pi interfaceName interfaceInfo hl
  have hrepo : ∀ s : String, ((extractBaseName interfaceName ++ s) != "") = true → True :=
    fun _ _ => trivial
  refine ⟨?_, ?_, ?_⟩
  · intro h1
    have hfind : findRelatedInterface (extractBaseName interfaceName)
        LayerType.repository pi = extractBaseName interfaceName ++ "Repo" := by
      simp [findRelatedInterface, findRelatedGo, layerSuffixPairs, h1]
    have hne : ((extractBaseName interfaceName ++ "Repo") != "") = true := by
      simp only [bne_iff_ne, ne_eq]
      exact append_ne_empty _ _ (by decide)
    simp only [writeFactoryMethod, hl, hfind, hne, if_pos]
    simp [String.append_assoc]
  · intro h1 h2
    have hfind : findRelatedInterface (extractBaseName interfaceName)
        LayerType.repository pi = extractBaseName interfaceName ++ "Repository" := by
      simp [findRelatedInterface, findRelatedGo, layerSuffixPairs, h1, h2]
    have hne : ((extractBaseName interfaceName ++ "Repository") != "") = true := by
      simp only [bne_iff_ne, ne_eq]
      exact append_ne_empty _ _ (by decide)
    simp only [writeFactoryMethod, hl, hfind, hne, if_pos]
    simp [String.append_assoc]
  · intro h1 h2
    have hfind : findRelatedInterface (extractBaseName interfaceName)
        LayerType.repository pi = "" := by
      simp [findRelatedInterface, findRelatedGo, layerSuffixPairs, h1, h2]
    simp only [writeFactoryMethod, hl, hfind]
    simp [String.append_assoc]

/-- Interface record for `ProductRepo` in the end-to-end scenario. -/
def iProductRepo : InterfaceInfo :=
  ⟨"ProductRepo", "app", "product.go", [], determineLayer "ProductRepo", [], []⟩

/-- Interface record for `ProductUseCase` in the end-to-end scenario. -/
def iProductUseCase : InterfaceInfo :=
  ⟨"ProductUseCase", "app", "product.go", [], determineLayer "ProductUseCase", [], []⟩

/-- Interface record for `ProductHandler` in the end-to-end scenario. -/
def iProductHandler : InterfaceInfo :=
  ⟨"ProductHandler", "app", "product.go", [], determineLayer "ProductHandler", [], []⟩

/-- The analyzed project of end-to-end scenario 2 (`ProductRepo`,
`ProductUseCase`, `ProductHandler`). -/
def piProduct : ProjectInfo :=
  ⟨"example.com/app", "app", ".",
    [("ProductRepo", iProductRepo), ("ProductUseCase", iProductUseCase),
      ("ProductHandler", iProductHandler)], []⟩

set_option maxRecDepth 8192 in
/-- C3 witness: end-to-end scenario 2 — `NewProductUseCase()` calls
`f.NewProductRepo()` and passes the result to `NewProductUseCase(...)`. -/
theorem claim_C3_witness :
    (piProduct.interfaces.lookup "ProductRepo").isSome = true ∧
    writeFactoryMethod "ProductUseCase" iProductUseCase piProduct =
      "// NewProductUseCase creates a new ProductUseCase instance with dependencies\n" ++
      "func (f *Factory) NewProductUseCase() ProductUseCase \x7b\n" ++
      "\trepo := f.NewProductRepo()\n" ++
      "\treturn NewProductUseCase(repo)\n" ++
      "\x7d\n\n" := by
  refine ⟨by decide, ?_⟩
  rw [(claim_C3_factory_usecase piProduct "ProductUseCase" iProductUseCase
    (by decide)).1 (by decide)]
  decide

/-- Embeds `Generator.generateImplementation` (src/unnamed/part_000 lines
61-101).  The Go function's returned `error` is syntactically always `nil`;
its only failure mode is the `interfaceName[0]` panic inside
`generateStructName`, embedded as `none`. -/
def generateImplementation (interfaceName : String) (interfaceInfo : InterfaceInfo)
    (pi : ProjectInfo) (now : String) : Option GeneratedFile :=
  match generateStructName interfaceName with
  | none => none
  | some structName =>
    let fileName := generateFileName interfaceName interfaceInfo.layer
    let imports := generateImports interfaceInfo
    let importBlock :=
      if imports.isEmpty then ""
      else "import (\n" ++ concatAll (imports.map fun imp => "\t" ++ imp ++ "\n") ++ ")\n\n"
    let content :=
      writeFileHeader pi.packageName now ++ importBlock ++
      writeStructDefinition structName interfaceName interfaceInfo pi ++
      writeConstructor structName interfaceName interfaceInfo pi ++
      concatAll (interfaceInfo.methods.map fun m =>
        writeMethodImplementation structName m interfaceInfo.layer) ++
      "// Ensure " ++ structName ++ " implements " ++ interfaceName ++ "\n" ++
      "var _ " ++ interfaceName ++ " = (*" ++ structName ++ ")(nil)\n"
    some ⟨fileName, content, countNewlines content⟩

/-- The fixed preamble of the factory file (lines 107-132). -/
def factoryPreamble (packageName now : String) : String :=
  writeFileHeader packageName now ++
  "import (\n\t\"database/sql\"\n\t\"context\"\n)\n\n" ++
  "// Factory provides centralized dependency injection\n" ++
  "// This follows the factory pattern for clean architecture\n" ++
  "type Factory struct \x7b\n\tdb     *sql.DB\n\tctx    context.Context\n" ++
  "\tconfig *Config // Add your config struct\n\x7d\n\n" ++
  "// NewFactory creates a new factory instance\n" ++
  "func NewFactory(db *sql.DB, ctx context.Context, config *Config) *Factory \x7b\n" ++
  "\treturn &Factory\x7b\n\t\tdb:     db,\n\t\tctx:    ctx,\n\t\tconfig: config,\n" ++
  "\t\x7d\n\x7d\n\n"

/-- Embeds `Generator.generateFactory` (lines 103-144); its `error` result is
syntactically always `nil`, so the embedding returns the file directly. -/
def generateFactory (pi : ProjectInfo) (now : String) : GeneratedFile :=
  let content := factoryPreamble pi.packageName now ++
    concatAll (pi.interfaces.map fun kv => writeFactoryMethod kv.1 kv.2 pi)
  ⟨"factory.gen.go", content, countNewlines content⟩

/-- Embeds `Generator.writeWireInjector` (lines 425-431). -/
def writeWireInjector (interfaceName : String) : String :=
  "// Initialize" ++ interfaceName ++ " creates a fully wired " ++ interfaceName ++
  " instance\n" ++
  "func Initialize" ++ interfaceName ++
  "(db *sql.DB, ctx context.Context, config *Config) (" ++ interfaceName ++
  ", error) \x7b\n" ++
  "\twire.Build(ProviderSet)\n" ++
  "\treturn nil, nil // Wire will generate the implementation\n" ++
  "\x7d\n\n"

/-- Embeds `Generator.generateWireIntegration` (lines 146-187); its `error`
result is syntactically always `nil`. -/
def generateWireIntegration (pi : ProjectInfo) (now : String) : GeneratedFile :=
  let content :=
    writeFileHeader pi.packageName now ++
    "//go:build wireinject\n// +build wireinject\n\n" ++
    "import (\n\t\"database/sql\"\n\t\"context\"\n\t\"github.com/google/wire\"\n)\n\n" ++
    "// ProviderSet is the Wire provider set for dependency injection\n" ++
    "var ProviderSet = wire.NewSet(\n" ++
    concatAll (pi.interfaces.map fun kv => "\tNew" ++ kv.1 ++ ",\n") ++
    "\tNewFactory,\n)\n\n" ++
    concatAll (pi.interfaces.map fun kv =>
      if kv.2.layer = LayerType.handler then writeWireInjector kv.1 else "")
  ⟨"wire.gen.go", content, countNewlines content⟩

/-- The implementation loop of `Generator.Generate` (lines 36-42): generate
one stub file per interface, propagating the first failure. -/
def generateImpls (pi : ProjectInfo) (now : String) :
    List (String × InterfaceInfo) → Option (List GeneratedFile)
  | [] => some []
  | (n, i) :: rest =>
    match generateImplementation n i pi now with
    | none => none
    | some f =>
      match generateImpls pi now rest with
      | none => none
      | some fs => some (f :: fs)

/-- Embeds `Generator.Generate` (lines 31-59): per-interface stubs, then the
factory file, then the wire file. -/
def Generate (pi : ProjectInfo) (now : String) : Option (List GeneratedFile) :=
  match generateImpls pi now pi.interfaces with
  | none => none
  | some impls => some (impls ++ [generateFactory pi now, generateWireIntegration pi now])

/-- A nonempty interface name always yields an implementation file. -/
theorem generateImplementation_isSome {interfaceName : String}
    (h : interfaceName ≠ "") (interfaceInfo : InterfaceInfo) (pi : ProjectInfo)
    (now : String) : (generateImplementation interfaceName interfaceInfo pi now).isSome = true := by
  cases hd : interfaceName.data with
  | nil =>
    exact absurd (String.ext (by simpa using hd)) h
  | cons c rest =>
    simp [generateImplementation, generateStructName, hd]

/-- The implementation loop succeeds and is length-preserving when every
interface name is nonempty. -/
theorem generateImpls_length (pi : ProjectInfo) (now : String) :
    ∀ entries : List (String × InterfaceInfo), (∀ kv ∈ entries, kv.1 ≠ "") →
      ∃ fs, generateImpls pi now entries = some fs ∧ fs.length = entries.length
  | [], _ => ⟨[], rfl, rfl⟩
  | (n, i) :: rest, h => by
    have hn : n ≠ "" := h (n, i) (List.mem_cons_self _ _)
    have hsome := generateImplementation_isSome hn i pi now
    obtain ⟨f, hf⟩ := Option.isSome_iff_exists.mp hsome
    obtain ⟨fs, hfs, hlen⟩ :=
      generateImpls_length pi now rest (fun kv hkv => h kv (List.mem_cons_of_mem _ hkv))
    refine ⟨f :: fs, ?_, by simp [hlen]⟩
    simp [generateImpls, hf, hfs]

/-- C10 (amended): for every project whose interface names are all nonempty,
`Generate` succeeds (the Go function's error branches are unreachable — every
sub-generator returns a nil error) and returns one stub file per analyzed
interface plus the two files `factory.gen.go` and `wire.gen.go`; for an
empty interface name the Go code panics on `interfaceName[0]` instead of
returning an error (see the counterexample). -/
theorem claim_C10_generate :
    ∀ (pi : ProjectInfo) (now : String), (∀ kv ∈ pi.interfaces, kv.1 ≠ "") →
      ∃ impls,
        Generate pi now =
          some (impls ++ [generateFactory pi now, generateWireIntegration pi now]) ∧
        impls.length = pi.interfaces.length ∧
        (generateFactory pi now).filename = "factory.gen.go" ∧
        (generateWireIntegration pi now).filename = "wire.gen.go" ∧
        (impls ++ [generateFactory pi now, generateWireIntegration pi now]).length =
          pi.interfaces.length + 2 := by
  intro pi now h
  obtain ⟨fs, hfs, hlen⟩ := generateImpls_length pi now pi.interfaces h
  refine ⟨fs, ?_, hlen, rfl, rfl, by simp [hlen]⟩
  simp [Generate, hfs]

/-- The interface record with an empty name for the C10 counterexample. -/
def iEmptyName : InterfaceInfo := ⟨"", "app", "x.go", [], determineLayer "", [], []⟩

/-- A project whose interface map holds a record under the empty name. -/
def piEmptyName : ProjectInfo := ⟨"example.com/app", "app", ".", [("", iEmptyName)], []⟩

/-- C10 counterexample: on a project containing an interface with the empty
name, generation does not succeed — the Go code panics evaluating
`interfaceName[0]` in `generateStructName` (embedded as `none`), so `Generate`
does not return a result for every input. -/
theorem claim_C10_counterexample :
    Generate piEmptyName "2024-01-01T00:00:00Z" = none := rfl

/-- C10 witness: the amended theorem instantiated at the three-interface
product project — five files are produced. -/
theorem claim_C10_witness :
    ∃ impls,
      Generate piProduct "2024-01-01T00:00:00Z" =
        some (impls ++ [generateFactory piProduct "2024-01-01T00:00:00Z",
          generateWireIntegration piProduct "2024-01-01T00:00:00Z"]) ∧
      impls.length = piProduct.interfaces.length ∧
      (generateFactory piProduct "2024-01-01T00:00:00Z").filename = "factory.gen.go" ∧
      (generateWireIntegration piProduct "2024-01-01T00:00:00Z").filename = "wire.gen.go" ∧
      (impls ++ [generateFactory piProduct "2024-01-01T00:00:00Z",
        generateWireIntegration piProduct "2024-01-01T00:00:00Z"]).length =
        piProduct.interfaces.length + 2 :=
  claim_C10_generate piProduct "2024-01-01T00:00:00Z" (by decide)

/-! ## Analyzer file pipeline (src/main.go lines 586-827) -/

/-- One entry of an interface body: a method field (possibly declaring
several names for one function type) or an embedded interface, which the
analyzer skips (the `*ast.FuncType` type assertion fails). -/
inductive IfaceEntry where
  | method (names : List String) (params : List AstField) (results : List AstField)
  | embedded (type : String)
deriving DecidableEq, Repr

/-- One field group of a struct body. -/
structure StructFieldAst where
  names : List String
  type : String
  tag : Option String
deriving DecidableEq, Repr

/-- A top-level type declaration as the analyzer's `ast.Inspect` walk visits
it (one `TypeSpec` of a `GenDecl`, with the `GenDecl` doc comment lines
attached verbatim, `//` prefixes included). -/
inductive GoDecl where
  | iface (name : String) (doc : List String) (entries : List IfaceEntry)
  | struc (name : String) (doc : List String) (fields : List StructFieldAst)
deriving DecidableEq, Repr

/-- The outcome of `parser.ParseFile` on one file: package name and the
type declarations of the syntax tree. -/
structure ParsedGo where
  pkgName : String
  decls : List GoDecl
deriving DecidableEq, Repr

/-- One source file as the walk hands it to `analyzeFile`: its path, its raw
lines (for the build-constraint filter), and its parse outcome (`none`
embeds a syntax error). -/
structure GoFile where
  path : String
  lines : List String
  parsed : Option ParsedGo
deriving DecidableEq, Repr

/-- Log severities of the `logger` package. -/
inductive LogLevel where
  | info
  | warning
  | success
  | error
deriving DecidableEq, Repr

/-- One log line. -/
structure LogEntry where
  level : LogLevel
  msg : String
deriving DecidableEq, Repr

/-- Embeds `Analyzer.extractInterface` (src/main.go lines 764-786), including
its `logger.Info` line. -/
def extractInterface (name : String) (entries : List IfaceEntry)
    (pkg filePath : String) (comments : List String) (pi : ProjectInfo) :
    ProjectInfo × List LogEntry :=
  let methods := entries.flatMap fun e =>
    match e with
    | .method names ps rs => names.map fun mn => extractMethodInfo mn ps rs
    | .embedded _ => []
  let info : InterfaceInfo := ⟨name, pkg, filePath, methods, determineLayer name, [], comments⟩
  ({ pi with interfaces := insertAssoc pi.interfaces name info },
    [⟨LogLevel.info, "Found interface: " ++ name ++ " (" ++ (determineLayer name).str ++
      " layer)"⟩])

/-- Embeds `Analyzer.extractStruct` (src/main.go lines 789-827). -/
def extractStruct (name : String) (fields : List StructFieldAst)
    (pkg filePath : String) (comments : List String) (pi : ProjectInfo) : ProjectInfo :=
  let fieldInfos := fields.flatMap fun f =>
    let tag := match f.tag with
      | some t => t
      | none => ""
    if f.names.isEmpty then [(⟨"", f.type, tag, true⟩ : FieldInfo)]
    else f.names.map fun fn => (⟨fn, f.type, tag, false⟩ : FieldInfo)
  { pi with structs := insertAssoc pi.structs name ⟨name, pkg, filePath, fieldInfos, comments⟩ }

/-- Embeds `Analyzer.processTypeDeclaration` (src/main.go lines 739-761) for
one type spec: doc-comment lines lose their `//` prefix, then the declaration
is dispatched on its underlying shape. -/
def processDecl (pkg filePath : String) (pi : ProjectInfo) :
    GoDecl → ProjectInfo × List LogEntry
  | .iface name doc entries =>
    extractInterface name entries pkg filePath (doc.map fun c => goTrimPre c "//") pi
  | .struc name doc fields =>
    (extractStruct name fields pkg filePath (doc.map fun c => goTrimPre c "//") pi, [])

/-- The declaration walk of `analyzeFile` over a parsed file's type
declarations, in source order. -/
def processDecls (pkg filePath : String) :
    List GoDecl → ProjectInfo → ProjectInfo × List LogEntry
  | [], pi => (pi, [])
  | d :: rest, pi =>
    let r1 := processDecl pkg filePath pi d
    let r2 := processDecls pkg filePath rest r1.1
    (r2.1, r1.2 ++ r2.2)

/-- Embeds `Analyzer.analyzeFile` (src/main.go lines 649-703): the
build-constraint filter first (skip logged as info), then the parse — a
parse failure logs a warning and returns with the project state unchanged —
then package-name adoption and the declaration walk.  The `Imports` map and
`filepath.Rel` are not modelled (the file's path stands for its relative
path); a file read error (which Go propagates as a fatal error) is outside
the model. -/
def analyzeFile (buildTags : List String) (f : GoFile) (pi : ProjectInfo) :
    ProjectInfo × List LogEntry :=
  if shouldIncludeFile buildTags f.lines = false then
    (pi, [⟨LogLevel.info, "Skipping file due to build constraints: " ++ f.path⟩])
  else
    match f.parsed with
    | none => (pi, [⟨LogLevel.warning, "Failed to parse " ++ f.path⟩])
    | some p =>
      let pi := if pi.packageName == "" then { pi with packageName := p.pkgName } else pi
      processDecls p.pkgName f.path p.decls pi

/-- The walk of `AnalyzeProject` over the files in visit order. -/
def analyzeFiles (buildTags : List String) :
    List GoFile → ProjectInfo → ProjectInfo × List LogEntry
  | [], pi => (pi, [])
  | f :: rest, pi =>
    let r1 := analyzeFile buildTags f pi
    let r2 := analyzeFiles buildTags rest r1.1
    (r2.1, r1.2 ++ r2.2)

/-- The fresh project state `AnalyzeProject` starts from. -/
def emptyProject (moduleName projectDir : String) : ProjectInfo :=
  ⟨moduleName, "", projectDir, [], []⟩

/-- Embeds `Analyzer.AnalyzeProject` (src/main.go lines 586-628) from the
point where the walk has produced the file list (the name-based skip filter
of the walk and the go.mod read are outside the model; `moduleName` is the
extracted module name): analyze every file, then establish relationships. -/
def analyzeProject (buildTags : List String) (moduleName projectDir : String)
    (files : List GoFile) : ProjectInfo × List LogEntry :=
  let r := analyzeFiles buildTags files (emptyProject moduleName projectDir)
  (establishRelationshipsPI r.1, r.2)

/-- Predicate for warning-level log entries. -/
def isWarning (e : LogEntry) : Bool := e.level == LogLevel.warning

/-- The declaration walk never logs warnings. -/
theorem processDecls_no_warning (pkg filePath : String) :
    ∀ (decls : List GoDecl) (pi : ProjectInfo),
      ((processDecls pkg filePath decls pi).2.countP isWarning) = 0
  | [], _ => rfl
  | d :: rest, pi => by
    simp only [processDecls, List.countP_append]
    rw [processDecls_no_warning pkg filePath rest]
    cases d <;> simp [processDecl, extractInterface, isWarning, List.countP_cons]

/-- Per-file warning count: exactly one when an included file fails to
parse, zero otherwise. -/
theorem analyzeFile_warnings (buildTags : List String) (f : GoFile) (pi : ProjectInfo) :
    (analyzeFile buildTags f pi).2.countP isWarning =
      (if shouldIncludeFile buildTags f.lines && f.parsed.isNone then 1 else 0) := by
  unfold analyzeFile
  cases hinc : shouldIncludeFile buildTags f.lines
  · simp [isWarning, List.countP_cons]
  · cases hp : f.parsed
    · simp [hp, isWarning, List.countP_cons]
    · simp [hp, processDecls_no_warning]

/-- A parse failure leaves the project state untouched. -/
theorem analyzeFile_state_of_failed (buildTags : List String) (f : GoFile)
    (pi : ProjectInfo) (hinc : shouldIncludeFile buildTags f.lines = true)
    (hp : f.parsed = none) : (analyzeFile buildTags f pi).1 = pi := by
  simp [analyzeFile, hinc, hp]

/-- Concrete valid file one for end-to-end scenario 3: declares `UserRepo`. -/
def c5Good1 : GoFile :=
  ⟨"user_repo.go", ["package app"],
    some ⟨"app", [GoDecl.iface "UserRepo" ["// UserRepo persists users"]
      [IfaceEntry.method ["GetByID"]
        [⟨["ctx"], "context.Context"⟩, ⟨["id"], "string"⟩]
        [⟨[], "*User"⟩, ⟨[], "error"⟩]]]⟩⟩

/-- Concrete syntactically invalid file for end-to-end scenario 3. -/
def c5Bad : GoFile := ⟨"broken.go", ["package app", "func \x7b"], none⟩

/-- Concrete valid file two for end-to-end scenario 3: declares
`UserUseCase`. -/
def c5Good2 : GoFile :=
  ⟨"user_usecase.go", ["package app"],
    some ⟨"app", [GoDecl.iface "UserUseCase" []
      [IfaceEntry.method ["GetUser"]
        [⟨["ctx"], "context.Context"⟩, ⟨["id"], "string"⟩]
        [⟨[], "*User"⟩, ⟨[], "error"⟩]]]⟩⟩

/-- C5: an individual parse failure is non-fatal — the failing file
contributes nothing (dropping every included-but-unparsable file from the
walk leaves the resulting project state unchanged), exactly one warning is
logged per included-but-unparsable file, and in end-to-end scenario 3 a
directory with one invalid file between two valid ones yields exactly the
records of the two valid files plus one logged warning. -/
theorem claim_C5_parse_failure_nonfatal :
    (∀ (buildTags : List String) (files : List GoFile) (pi : ProjectInfo),
      ((analyzeFiles buildTags files pi).1 =
        (analyzeFiles buildTags
          (files.filter fun f =>
            !(shouldIncludeFile buildTags f.lines && f.parsed.isNone)) pi).1) ∧
      ((analyzeFiles buildTags files pi).2.countP isWarning =
        files.countP fun f => shouldIncludeFile buildTags f.lines && f.parsed.isNone)) ∧
    ((analyzeProject [] "example.com/app" "." [c5Good1, c5Bad, c5Good2]).1 =
      (analyzeProject [] "example.com/app" "." [c5Good1, c5Good2]).1 ∧
    (analyzeProject [] "example.com/app" "." [c5Good1, c5Bad, c5Good2]).2.countP isWarning = 1 ∧
    ((analyzeProject [] "example.com/app" "."
      [c5Good1, c5Bad, c5Good2]).1.interfaces.map Prod.fst) = ["UserRepo", "UserUseCase"]) := by
  constructor
  · intro buildTags files
    induction files with
    | nil => intro pi; exact ⟨rfl, rfl⟩
    | cons f rest ih =>
      intro pi
      cases hdrop : (shouldIncludeFile buildTags f.lines && f.parsed.isNone) with
      | true =>
        have h' := hdrop
        rw [Bool.and_eq_true] at h'
        have hinc : shouldIncludeFile buildTags f.lines = true := h'.1
        have hp : f.parsed = none := Option.isNone_iff_eq_none.mp h'.2
        constructor
        · simp only [analyzeFiles, List.filter_cons, hdrop, Bool.not_true,
            Bool.false_eq_true, if_false]
          rw [analyzeFile_state_of_failed buildTags f pi hinc hp]
          exact (ih pi).1
        · simp only [analyzeFiles, List.countP_append, List.countP_cons,
            analyzeFile_warnings, hdrop]
          rw [analyzeFile_state_of_failed buildTags f pi hinc hp]
          have hih := (ih pi).2
          simp only [hih]
          omega
      | false =>
        constructor
        · simp only [analyzeFiles, List.filter_cons, hdrop, Bool.not_false, if_pos]
          exact (ih (analyzeFile buildTags f pi).1).1
        · simp only [analyzeFiles, List.countP_append, List.countP_cons,
            analyzeFile_warnings, hdrop]
          have hih := (ih (analyzeFile buildTags f pi).1).2
          simp only [hih]
          simp
  · refine ⟨by decide, by decide, by decide⟩

/-! ## Pipeline A file writer (src/internal/generator/generator.go) -/

/-- The write-policy flags (`generator.GeneratorOptions`). -/
structure GeneratorOptions where
  skipExisting : Bool
  createBackup : Bool
  force : Bool
deriving DecidableEq, Repr

/-- File-system operations `writeFile`/`createBackup` perform, in order.
`mkdirAll` is included so that the absence of directory creation is
expressible; `writeFile` never emits it (no `os.MkdirAll` call occurs in
lines 317-364 — directories are made once per run by
`createProjectStructure`). -/
inductive FsOp where
  | stat (path : String)
  | read (path : String)
  | write (path : String) (content : String)
  | mkdirAll (path : String)
deriving DecidableEq, Repr

/-- Whether an operation creates directories. -/
def FsOp.isMkdir : FsOp → Bool
  | .mkdirAll _ => true
  | _ => false

/-- Embeds `Generator.writeFile` (src/internal/generator/generator.go lines
317-354) with `createBackup` (lines 356-364) inlined.  The file system is an
association list from paths to contents; the returned list records the
operations in program order.  `content` stands for the successful
`Execute(template, data)` result (the templates are fixed strings); read and
backup-write failures, which the Go code only warns about, are not
modelled. -/
def writeFileA (opts : GeneratorOptions) (fs : List (String × String))
    (fullPath content : String) : List (String × String) × List FsOp :=
  match fs.lookup fullPath with
  | some old =>
    if opts.skipExisting && !opts.force then (fs, [FsOp.stat fullPath])
    else
      let backupStep :=
        if opts.createBackup then
          (insertAssoc fs (fullPath ++ ".backup") old,
            [FsOp.read fullPath, FsOp.write (fullPath ++ ".backup") old])
        else (fs, ([] : List FsOp))
      (insertAssoc backupStep.1 fullPath content,
        [FsOp.stat fullPath] ++ backupStep.2 ++ [FsOp.write fullPath content])
  | none =>
    (insertAssoc fs fullPath content,
      [FsOp.stat fullPath, FsOp.write fullPath content])

/-- A path with the `.backup` suffix differs from the path itself. -/
theorem backup_path_ne (p : String) : p ++ ".backup" ≠ p := by
  intro he
  have hd := congrArg String.data he
  rw [String.data_append] at hd
  have hlen := congrArg List.length hd
  rw [List.length_append] at hlen
  have h7 : (".backup" : String).data.length = 7 := rfl
  omega

/-- C9 (amended): per call, the writer skips when the target exists with
skip-existing set and force unset; otherwise, when backup is requested and
the target exists, the old content is first copied to the `.backup` sibling
and then the target is overwritten; a missing target is written directly —
and in every case the writer performs no directory creation (parent
directories are NOT created by `writeFile`; they are made once per run by
`createProjectStructure`). -/
theorem claim_C9_write_policy :
    ∀ (opts : GeneratorOptions) (fs : List (String × String)) (fullPath content : String),
      (((writeFileA opts fs fullPath content).2.all fun op => !op.isMkdir) = true) ∧
      (∀ old, fs.lookup fullPath = some old → opts.skipExisting = true →
        opts.force = false →
        writeFileA opts fs fullPath content = (fs, [FsOp.stat fullPath])) ∧
      (∀ old, fs.lookup fullPath = some old →
        (opts.skipExisting && !opts.force) = false → opts.createBackup = true →
        (writeFileA opts fs fullPath content).2 =
          [FsOp.stat fullPath, FsOp.read fullPath,
            FsOp.write (fullPath ++ ".backup") old, FsOp.write fullPath content] ∧
        (writeFileA opts fs fullPath content).1.lookup (fullPath ++ ".backup") = some old ∧
        (writeFileA opts fs fullPath content).1.lookup fullPath = some content) ∧
      (fs.lookup fullPath = none →
        writeFileA opts fs fullPath content =
          (insertAssoc fs fullPath content,
            [FsOp.stat fullPath, FsOp.write fullPath content]) ∧
        (insertAssoc fs fullPath content).lookup fullPath = some content) := by
  intro opts fs fullPath content
  refine ⟨?_, ?_, ?_, ?_⟩
  · unfold writeFileA
    cases hl : fs.lookup fullPath
    · simp [FsOp.isMkdir]
    · cases hskip : (opts.skipExisting && !opts.force)
      · cases hb : opts.createBackup <;> simp [hskip, hb, FsOp.isMkdir]
      · simp [hskip, FsOp.isMkdir]
  · intro old hl hskip hforce
    unfold writeFileA
    simp [hl, hskip, hforce]
  · intro old hl hskip hb
    unfold writeFileA
    have hne : fullPath ≠ fullPath ++ ".backup" := (backup_path_ne fullPath).symm
    refine ⟨by simp [hl, hskip, hb], ?_, ?_⟩
    · simp only [hl, hskip, Bool.false_eq_true, if_false, hb, if_pos]
      rw [lookup_insertAssoc_ne _ fullPath (fullPath ++ ".backup") content hne]
      exact lookup_insertAssoc_self fs (fullPath ++ ".backup") old
    · simp only [hl, hskip, Bool.false_eq_true, if_false, hb, if_pos]
      exact lookup_insertAssoc_self _ fullPath content
  · intro hl
    unfold writeFileA
    exact ⟨by simp [hl], lookup_insertAssoc_self fs fullPath content⟩

/-- C9 counterexample: on a fresh file system the writer writes a file under
a nested directory while performing no directory-creation operation at all —
refuting "missing parent directories of the target are always created before
writing" (parent directories are created elsewhere, once per run). -/
theorem claim_C9_counterexample :
    (writeFileA ⟨true, false, false⟩ [] "internal/app/config.go" "code").2 =
      [FsOp.stat "internal/app/config.go", FsOp.write "internal/app/config.go" "code"] ∧
    ((writeFileA ⟨true, false, false⟩ [] "internal/app/config.go" "code").2.any
      FsOp.isMkdir) = false := by
  decide

/-- C9 witness: the amended theorem at concrete inputs — a skip (target
exists, skip-existing set, force unset), a backup-then-overwrite (backup
requested on an existing target), and a plain write of a missing target. -/
theorem claim_C9_witness :
    (writeFileA ⟨true, false, false⟩ [("a.go", "old")] "a.go" "new" =
      ([("a.go", "old")], [FsOp.stat "a.go"])) ∧
    ((writeFileA ⟨false, true, false⟩ [("a.go", "old")] "a.go" "new").2 =
      [FsOp.stat "a.go", FsOp.read "a.go", FsOp.write "a.go.backup" "old",
        FsOp.write "a.go" "new"] ∧
      (writeFileA ⟨false, true, false⟩ [("a.go", "old")] "a.go" "new").1.lookup
        "a.go.backup" = some "old" ∧
      (writeFileA ⟨false, true, false⟩ [("a.go", "old")] "a.go" "new").1.lookup
        "a.go" = some "new") ∧
    (writeFileA ⟨true, true, false⟩ [] "b.go" "body" =
      (insertAssoc [] "b.go" "body", [FsOp.stat "b.go", FsOp.write "b.go" "body"])) := by
  refine ⟨?_, ?_, ?_⟩
  · exact (claim_C9_write_policy ⟨true, false, false⟩ [("a.go", "old")] "a.go" "new").2.1
      "old" (by decide) rfl rfl
  · have h := (claim_C9_write_policy ⟨false, true, false⟩ [("a.go", "old")] "a.go"
      "new").2.2.1 "old" (by decide) rfl rfl
    have happ : ("a.go" ++ ".backup" : String) = "a.go.backup" := rfl
    refine ⟨?_, ?_, ?_⟩
    · rw [h.1]
      decide
    · rw [← happ]
      exact h.2.1
    · exact h.2.2
  · exact ((claim_C9_write_policy ⟨true, true, false⟩ [] "b.go" "body").2.2.2
      (by decide)).1

end CodeGen
